import Mathlib

/-!
Verification of the chat actor template
(`src/new/templates/python/no-ui/chat/chat/src/lib.py`).

The Python module is shallowly embedded: the pure helpers
(`parse_address`, `add_to_archive`) become Lean functions on lists and
strings; the effectful `handle_message` becomes a function from the
received message (an explicit value standing for the result of
`receive()`) to either an error (the Python `raise`) or the new archive
together with the observable effects (relay calls issued via
`send_and_await_response`, responses sent via `send_response`, and
terminal prints).  The `init` loop's `try/except` becomes `loop_step`,
and the `while True` loop becomes a fold over a list of received
messages.
-/

namespace ChatKit

/-- Python `str.partition(sep)` restricted to a single-character
separator, on the character-list view of the string: split at the first
occurrence of `sep`; if `sep` does not occur, the second component is
empty (which is how `parse_address` consumes the discarded middle). -/
def partition_char (sep : Char) : List Char → List Char × List Char
  | [] => ([], [])
  | c :: cs =>
    if c = sep then ([], cs)
    else
      let (before, after) := partition_char sep cs
      (c :: before, after)

/-- `parse_address` from the source: successive `partition` on `"@"`
then `":"` three times, returning `(node, process, package, publisher)`. -/
def parse_address (address_string : String) : String × String × String × String :=
  let (node, rest) := partition_char '@' address_string.toList
  let (process, rest) := partition_char ':' rest
  let (package, rest) := partition_char ':' rest
  let (publisher, _rest) := partition_char ':' rest
  (String.mk node, String.mk process, String.mk package, String.mk publisher)

/-- One archived message: the dict `{"author": ..., "content": ...}`. -/
structure ArchiveEntry where
  author : String
  content : String
deriving DecidableEq, Repr

/-- The `message_archive` dict, keyed by conversation (a node name),
in insertion order, as Python dicts preserve insertion order. -/
abbrev Archive := List (String × List ArchiveEntry)

/-- Python `message_archive.get(k, [])`: the stored sequence, or `[]`
when the key is unknown. -/
def dict_get (a : Archive) (k : String) : List ArchiveEntry :=
  match a with
  | [] => []
  | (c, es) :: rest => if c = k then es else dict_get rest k

/-- Python `conversation in message_archive`. -/
def dict_contains (a : Archive) (k : String) : Bool :=
  match a with
  | [] => false
  | (c, _) :: rest => c = k || dict_contains rest k

/-- `add_to_archive` from the source: append the entry to the
conversation's list when the key exists, otherwise bind the key (at the
end, as Python dict insertion does) to a fresh one-element list. -/
def add_to_archive (conversation author content : String) (message_archive : Archive) :
    Archive :=
  let message : ArchiveEntry := ⟨author, content⟩
  if dict_contains message_archive conversation then
    message_archive.map (fun p => if p.1 = conversation then (p.1, p.2 ++ [message]) else p)
  else
    message_archive ++ [(conversation, [message])]

/-- The decoded JSON request body, after `json.loads`: the code checks
`"Send" in body` first, then `"History" in body`; anything else is the
`Unexpected Request` branch.  `body["History"]` may be JSON `null`,
hence the `Option`. -/
inductive Body where
  | send (target message_text : String)
  | history (node : Option String)
  | other
deriving DecidableEq, Repr

/-- The value observed by `handle_message` for one call of `receive()`:
a transport error (`Err`), a top-level `MessageResponse`, a
`MessageRequest` whose body fails UTF-8/JSON decoding, or a decoded
request together with `source.node`. -/
inductive Received where
  | err (e : String)
  | response
  | badRequest (sourceNode : String)
  | request (sourceNode : String) (body : Body)
deriving DecidableEq, Repr

/-- One call of `send_and_await_response`, with the `Address` fields,
the `Request(False, 5, body, None, [])` fields, and the forwarded body
(`message.value.body`, which decodes back to the inbound `Send`). -/
structure RelayCall where
  targetNode : String
  processName : String
  packageName : String
  publisherName : String
  inheritFlag : Bool
  timeout : Nat
  body : Body
deriving DecidableEq, Repr

/-- The body of a `send_response` call: `{"Send": null}` (the Ack) or
`{"History": [...entries...]}`. -/
inductive ResponseBody where
  | sendAck
  | historyEntries (entries : List ArchiveEntry)
deriving DecidableEq, Repr

/-- Observable effects of one `handle_message` call, in order of
occurrence within each list. -/
structure Effects where
  relays : List RelayCall
  responses : List ResponseBody
  prints : List String
deriving DecidableEq, Repr

/-- The exceptions `handle_message` raises. -/
inductive ChatError where
  | transport (e : String)
  | unexpectedResponse
  | decodeError
  | unexpectedRequest
deriving DecidableEq, Repr

/-- The text interpolated into the raised exception, as far as the
model tracks it. -/
def error_text : ChatError → String
  | .transport e => "got error: " ++ e
  | .unexpectedResponse => "unexpected Response"
  | .decodeError => "could not decode body"
  | .unexpectedRequest => "Unexpected Request"

/-- `message_archive.get(node, [])` where `node = body["History"]` may
be JSON `null`: every key of the archive is a string (only
`add_to_archive` inserts keys), so a `null` lookup always takes the
default `[]`. -/
def history_lookup (a : Archive) (node : Option String) : List ArchiveEntry :=
  match node with
  | some k => dict_get a k
  | none => []

/-- `handle_message` from the source.  `relayOutcome` stands for the
value returned by `send_and_await_response`; the source discards it, so
it is a parameter the result provably does not depend on.  A `raise`
becomes `.error`; otherwise the returned archive and the effects are
produced. -/
def handle_message (our_node : String) (message_archive : Archive) (received : Received)
    (relayOutcome : Except String Unit) : Except ChatError (Archive × Effects) :=
  match received with
  | .err e => .error (.transport e)
  | .response => .error .unexpectedResponse
  | .badRequest _ => .error .decodeError
  | .request sourceNode body =>
    match body with
    | .send target message_text =>
      if target = our_node then
        let archive := add_to_archive sourceNode sourceNode message_text message_archive
        .ok (archive, ⟨[], [.sendAck], [sourceNode ++ ": " ++ message_text]⟩)
      else
        let _ := relayOutcome
        let archive := add_to_archive target our_node message_text message_archive
        .ok (archive,
          ⟨[⟨target, "chat", "chat", "template.os", false, 5, .send target message_text⟩],
            [.sendAck], []⟩)
    | .history node =>
      .ok (message_archive, ⟨[], [.historyEntries (history_lookup message_archive node)], []⟩)
    | .other => .error .unexpectedRequest

/-- One iteration of the `while True` loop in `init`: call
`handle_message`; on an exception, keep the previous archive and print
`"chat: error: ..."`. -/
def loop_step (our_node : String) (message_archive : Archive) (received : Received)
    (relayOutcome : Except String Unit) : Archive × Effects :=
  match handle_message our_node message_archive received relayOutcome with
  | .ok r => r
  | .error e => (message_archive, ⟨[], [], ["chat: error: " ++ error_text e]⟩)

/-- The `while True` loop over a finite schedule of received messages
(each paired with the relay outcome the environment would supply),
returning the final archive. -/
def run_loop (our_node : String) (message_archive : Archive) :
    List (Received × Except String Unit) → Archive
  | [] => message_archive
  | (r, o) :: rest => run_loop our_node (loop_step our_node message_archive r o).1 rest

/-- One handled `Send` request, for reasoning about sequences of sends:
`sourceNode` is the sender, `target` and `message_text` the decoded
`body["Send"]` fields. -/
structure SendEvent where
  sourceNode : String
  target : String
  message_text : String
deriving DecidableEq, Repr

/-- The conversation key the source archives under: `source.node` for a
self-addressed send, `target` otherwise. -/
def conversation_key (our : String) (e : SendEvent) : String :=
  if e.target = our then e.sourceNode else e.target

/-- The entry the source appends: author `source.node` for a
self-addressed send, `our_node` otherwise; content is the message text. -/
def entry_of (our : String) (e : SendEvent) : ArchiveEntry :=
  ⟨if e.target = our then e.sourceNode else our, e.message_text⟩

/-- The loop run over a schedule consisting only of `Send` requests. -/
def run_sends (our : String) (a : Archive) : List SendEvent → Archive
  | [] => a
  | e :: es =>
      run_sends our
        (loop_step our a (.request e.sourceNode (.send e.target e.message_text)) (.ok ())).1 es

theorem get_of_not_contains (a : Archive) (k : String) (h : dict_contains a k = false) :
    dict_get a k = [] := by
  induction a with
  | nil => rfl
  | cons p rest ih =>
    obtain ⟨c, es⟩ := p
    simp only [dict_contains, Bool.or_eq_false_iff, decide_eq_false_iff_not] at h
    simp only [dict_get, if_neg h.1]
    exact ih h.2

theorem get_append_other (a : Archive) (c k : String) (es : List ArchiveEntry) (h : ¬ c = k) :
    dict_get (a ++ [(c, es)]) k = dict_get a k := by
  induction a with
  | nil => simp [dict_get, if_neg h]
  | cons p rest ih =>
    obtain ⟨c', es'⟩ := p
    by_cases h' : c' = k
    · simp [dict_get, if_pos h']
    · simp [dict_get, if_neg h', ih]

theorem get_append_self (a : Archive) (c : String) (es : List ArchiveEntry)
    (h : dict_contains a c = false) :
    dict_get (a ++ [(c, es)]) c = es := by
  induction a with
  | nil => simp [dict_get]
  | cons p rest ih =>
    obtain ⟨c', es'⟩ := p
    simp only [dict_contains, Bool.or_eq_false_iff, decide_eq_false_iff_not] at h
    simp only [List.cons_append, dict_get, if_neg h.1]
    exact ih h.2

theorem map_update_cons (c c' : String) (es' : List ArchiveEntry) (m : ArchiveEntry)
    (rest : Archive) :
    ((c', es') :: rest).map (fun p => if p.1 = c then (p.1, p.2 ++ [m]) else p) =
      (if c' = c then (c', es' ++ [m]) else (c', es')) ::
        rest.map (fun p => if p.1 = c then (p.1, p.2 ++ [m]) else p) := by
  by_cases h : c' = c <;> simp [h]

theorem get_map_update_other (a : Archive) (c k : String) (m : ArchiveEntry) (h : ¬ c = k) :
    dict_get (a.map (fun p => if p.1 = c then (p.1, p.2 ++ [m]) else p)) k = dict_get a k := by
  induction a with
  | nil => rfl
  | cons p rest ih =>
    obtain ⟨c', es'⟩ := p
    rw [map_update_cons]
    by_cases hc : c' = c
    · rw [if_pos hc]
      have hk : ¬ c' = k := fun hh => h (hc ▸ hh)
      simp only [dict_get, if_neg hk]
      exact ih
    · rw [if_neg hc]
      by_cases hk : c' = k
      · simp only [dict_get, if_pos hk]
      · simp only [dict_get, if_neg hk]
        exact ih

theorem get_map_update_self (a : Archive) (c : String) (m : ArchiveEntry)
    (h : dict_contains a c = true) :
    dict_get (a.map (fun p => if p.1 = c then (p.1, p.2 ++ [m]) else p)) c =
      dict_get a c ++ [m] := by
  induction a with
  | nil => simp [dict_contains] at h
  | cons p rest ih =>
    obtain ⟨c', es'⟩ := p
    rw [map_update_cons]
    by_cases hc : c' = c
    · rw [if_pos hc]
      simp only [dict_get, if_pos hc]
    · rw [if_neg hc]
      simp only [dict_contains, Bool.or_eq_true, decide_eq_true_eq] at h
      rcases h with h | h
      · exact absurd h hc
      · simp only [dict_get, if_neg hc]
        exact ih h

/-- The archive after `add_to_archive`, as seen through `dict_get`: the
targeted conversation gains the new entry at its end, every other key
is untouched. -/
theorem dict_get_add (c auth cont : String) (a : Archive) (k : String) :
    dict_get (add_to_archive c auth cont a) k =
      if c = k then dict_get a k ++ [⟨auth, cont⟩] else dict_get a k := by
  by_cases hck : c = k
  · subst hck
    by_cases hc : dict_contains a c = true
    · simp [add_to_archive, hc, get_map_update_self a c _ hc]
    · have hc' : dict_contains a c = false := by simpa using hc
      simp [add_to_archive, hc', get_append_self a c _ hc', get_of_not_contains a c hc']
  · by_cases hc : dict_contains a c = true
    · simp [add_to_archive, hc, get_map_update_other a c k _ hck, hck]
    · have hc' : dict_contains a c = false := by simpa using hc
      simp [add_to_archive, hc', get_append_other a c k _ hck, hck]

theorem dict_get_add_tail (c auth cont : String) (a : Archive) (k : String) :
    ∃ tail, dict_get (add_to_archive c auth cont a) k = dict_get a k ++ tail := by
  by_cases h : c = k
  · exact ⟨[⟨auth, cont⟩], by rw [dict_get_add, if_pos h]⟩
  · exact ⟨[], by rw [dict_get_add, if_neg h, List.append_nil]⟩

/-- The archive produced by one loop iteration on a `Send` request, in
terms of its conversation key and author. -/
theorem loop_step_send_archive (our : String) (e : SendEvent) (a : Archive)
    (o : Except String Unit) :
    (loop_step our a (.request e.sourceNode (.send e.target e.message_text)) o).1 =
      add_to_archive (conversation_key our e)
        (if e.target = our then e.sourceNode else our) e.message_text a := by
  by_cases h : e.target = our <;>
    simp [loop_step, handle_message, conversation_key, h]

/-- A loop iteration either leaves the archive alone or passes it
through one `add_to_archive`. -/
theorem loop_step_archive_shape (our : String) (a : Archive) (r : Received)
    (o : Except String Unit) :
    (loop_step our a r o).1 = a ∨
      ∃ c auth cont, (loop_step our a r o).1 = add_to_archive c auth cont a := by
  cases r with
  | err e => left; rfl
  | response => left; rfl
  | badRequest s => left; rfl
  | request s b =>
    cases b with
    | other => left; rfl
    | history node => left; rfl
    | send t m =>
      right
      by_cases h : t = our
      · exact ⟨s, s, m, by simp [loop_step, handle_message, h]⟩
      · exact ⟨t, our, m, by simp [loop_step, handle_message, h]⟩

theorem loop_step_tail (our : String) (a : Archive) (r : Received) (o : Except String Unit)
    (K : String) :
    ∃ tail, dict_get (loop_step our a r o).1 K = dict_get a K ++ tail := by
  rcases loop_step_archive_shape our a r o with h | ⟨c, auth, cont, h⟩
  · exact ⟨[], by rw [h, List.append_nil]⟩
  · rw [h]
    exact dict_get_add_tail c auth cont a K

theorem run_sends_tail (our : String) (events : List SendEvent) (a : Archive) (K : String) :
    ∃ tail, dict_get (run_sends our a events) K = dict_get a K ++ tail := by
  induction events generalizing a with
  | nil => exact ⟨[], by simp [run_sends]⟩
  | cons e es ih =>
    obtain ⟨t1, h1⟩ :=
      loop_step_tail our a (.request e.sourceNode (.send e.target e.message_text)) (.ok ()) K
    obtain ⟨t2, h2⟩ :=
      ih (loop_step our a (.request e.sourceNode (.send e.target e.message_text)) (.ok ())).1
    exact ⟨t1 ++ t2, by rw [run_sends, h2, h1, List.append_assoc]⟩

/-- Folding a sequence of `Send` requests all keyed to conversation `C`
appends exactly their entries, in order, to `C`'s list. -/
theorem run_sends_key (our C : String) (events : List SendEvent) (a : Archive)
    (h : ∀ e ∈ events, conversation_key our e = C) :
    dict_get (run_sends our a events) C = dict_get a C ++ events.map (entry_of our) := by
  induction events generalizing a with
  | nil => simp [run_sends]
  | cons e es ih =>
    have hkey : conversation_key our e = C := h e (List.mem_cons_self e es)
    simp only [run_sends, loop_step_send_archive]
    rw [ih _ (fun e' he' => h e' (List.mem_cons_of_mem _ he')), dict_get_add, hkey,
      if_pos rfl]
    simp [entry_of]

/-- C1, as claimed, is false: with the nonempty archive
`{"alice": [{"author": "alice", "content": "hi"}]}`, a `History`
request whose node is `null` is answered with the *empty* entry list —
`message_archive.get(None, [])` takes the default since no key is
`None` — not with the full archive, which does contain an entry under
`"alice"`. -/
theorem history_null_counterexample :
    handle_message "node" [("alice", [⟨"alice", "hi"⟩])] (.request "p" (.history none))
        (.ok ()) =
      .ok ([("alice", [⟨"alice", "hi"⟩])], ⟨[], [.historyEntries []], []⟩) ∧
    dict_get [("alice", [⟨"alice", "hi"⟩])] "alice" ≠ [] := by
  constructor
  · rfl
  · decide

/-- C1 (amended): handling a `History` command whose target node is
`null` returns the empty sequence as the response body (a `null` key is
never present in the string-keyed archive, so the `.get` default is
taken); when a target node is present, the response is that
conversation's entries.  The full archive is never returned. -/
theorem history_null_returns_empty (our_node sourceNode : String) (a : Archive)
    (o : Except String Unit) :
    handle_message our_node a (.request sourceNode (.history none)) o =
      .ok (a, ⟨[], [.historyEntries []], []⟩) ∧
    ∀ K, handle_message our_node a (.request sourceNode (.history (some K))) o =
      .ok (a, ⟨[], [.historyEntries (dict_get a K)], []⟩) := by
  constructor
  · rfl
  · intro K
    rfl

/-- C2: a `Send` whose target is not the local node issues exactly one
relay call — to `target`'s `chat:chat:template.os` actor, forwarding
the same `Send` body, with `Request(False, 5, ...)`, i.e. a timeout of
5 — appends exactly one entry under conversation key `target` with
author `our_node` and the message text as content, and sends the
`{"Send": null}` acknowledgment; the relay outcome `o` is universally
quantified and the result does not depend on it. -/
theorem remote_send_spec (our_node sourceNode target message_text : String) (a : Archive)
    (o : Except String Unit) (h : ¬ target = our_node) :
    handle_message our_node a (.request sourceNode (.send target message_text)) o =
      .ok (add_to_archive target our_node message_text a,
        ⟨[⟨target, "chat", "chat", "template.os", false, 5, .send target message_text⟩],
          [.sendAck], []⟩) ∧
    dict_get (add_to_archive target our_node message_text a) target =
      dict_get a target ++ [⟨our_node, message_text⟩] := by
  constructor
  · simp [handle_message, h]
  · rw [dict_get_add, if_pos rfl]

theorem remote_send_spec_witness :
    handle_message "node" [] (.request "p" (.send "q" "m")) (.error "timeout") =
      .ok (add_to_archive "q" "node" "m" [],
        ⟨[⟨"q", "chat", "chat", "template.os", false, 5, .send "q" "m"⟩],
          [.sendAck], []⟩) ∧
    dict_get (add_to_archive "q" "node" "m" []) "q" =
      dict_get ([] : Archive) "q" ++ [⟨"node", "m"⟩] :=
  remote_send_spec "node" "p" "q" "m" [] (.error "timeout") (by decide)

/-- C3: a `Send` whose target is the local node, received from
`sourceNode`, appends exactly one entry under conversation key
`sourceNode` with author `sourceNode` and the message text as content,
sends the `{"Send": null}` acknowledgment back, performs no relay call,
and prints the message to the terminal. -/
theorem self_send_spec (our_node sourceNode target message_text : String) (a : Archive)
    (o : Except String Unit) (h : target = our_node) :
    handle_message our_node a (.request sourceNode (.send target message_text)) o =
      .ok (add_to_archive sourceNode sourceNode message_text a,
        ⟨[], [.sendAck], [sourceNode ++ ": " ++ message_text]⟩) ∧
    dict_get (add_to_archive sourceNode sourceNode message_text a) sourceNode =
      dict_get a sourceNode ++ [⟨sourceNode, message_text⟩] := by
  constructor
  · simp [handle_message, h]
  · rw [dict_get_add, if_pos rfl]

theorem self_send_spec_witness :
    handle_message "node" [] (.request "p" (.send "node" "m")) (.ok ()) =
      .ok (add_to_archive "p" "p" "m" [], ⟨[], [.sendAck], ["p" ++ ": " ++ "m"]⟩) ∧
    dict_get (add_to_archive "p" "p" "m" []) "p" =
      dict_get ([] : Archive) "p" ++ [⟨"p", "m"⟩] :=
  self_send_spec "node" "p" "node" "m" [] (.ok ()) rfl

/-- C4: the archive is append-only.  Starting from any archive and
folding any sequence of `Send` requests whose conversation key (per the
self-addressed vs. remote rules) is `C`, a `History(C)` request on the
resulting archive is answered with the prior entries of `C` followed by
exactly the new entries in submission order; and for every key `K`, the
new list under `K` is the old list with some (possibly empty) tail
appended — nothing is ever removed or reordered. -/
theorem send_sequence_append_only (our C P : String) (a : Archive)
    (events : List SendEvent) (o : Except String Unit)
    (h : ∀ e ∈ events, conversation_key our e = C) :
    handle_message our (run_sends our a events) (.request P (.history (some C))) o =
      .ok (run_sends our a events,
        ⟨[], [.historyEntries (dict_get a C ++ events.map (entry_of our))], []⟩) ∧
    ∀ K, ∃ tail, dict_get (run_sends our a events) K = dict_get a K ++ tail := by
  constructor
  · simp [handle_message, history_lookup, run_sends_key our C events a h]
  · exact fun K => run_sends_tail our events a K

theorem send_sequence_append_only_witness :
    handle_message "n" (run_sends "n" [] [⟨"p", "q", "m1"⟩, ⟨"p", "q", "m2"⟩])
        (.request "p" (.history (some "q"))) (.ok ()) =
      .ok (run_sends "n" [] [⟨"p", "q", "m1"⟩, ⟨"p", "q", "m2"⟩],
        ⟨[], [.historyEntries (dict_get [] "q" ++
          ([⟨"p", "q", "m1"⟩, ⟨"p", "q", "m2"⟩].map (entry_of "n")))], []⟩) ∧
    ∀ K, ∃ tail, dict_get (run_sends "n" [] [⟨"p", "q", "m1"⟩, ⟨"p", "q", "m2"⟩]) K =
      dict_get ([] : Archive) K ++ tail :=
  send_sequence_append_only "n" "q" "p" [] [⟨"p", "q", "m1"⟩, ⟨"p", "q", "m2"⟩] (.ok ())
    (by decide)

/-- C5: each protocol violation — a bare response at the top of the
receive loop, a request body that fails UTF-8/JSON decoding, and a
decoded body with neither a `Send` nor a `History` key — is logged via
the `chat: error:` terminal line, sends no response (and no relay), and
the loop continues to the next receive with the archive unchanged. -/
theorem protocol_violation_no_response (our_node sourceNode : String) (a : Archive)
    (o : Except String Unit) (rest : List (Received × Except String Unit)) :
    (loop_step our_node a .response o =
        (a, ⟨[], [], ["chat: error: " ++ error_text .unexpectedResponse]⟩) ∧
      run_loop our_node a ((.response, o) :: rest) = run_loop our_node a rest) ∧
    (loop_step our_node a (.badRequest sourceNode) o =
        (a, ⟨[], [], ["chat: error: " ++ error_text .decodeError]⟩) ∧
      run_loop our_node a ((.badRequest sourceNode, o) :: rest) =
        run_loop our_node a rest) ∧
    (loop_step our_node a (.request sourceNode .other) o =
        (a, ⟨[], [], ["chat: error: " ++ error_text .unexpectedRequest]⟩) ∧
      run_loop our_node a ((.request sourceNode .other, o) :: rest) =
        run_loop our_node a rest) := by
  refine ⟨⟨rfl, rfl⟩, ⟨rfl, rfl⟩, rfl, rfl⟩

theorem partition_char_of_not_mem (sep : Char) (l : List Char) (hsep : ∀ c ∈ l, c ≠ sep) :
    partition_char sep l = (l, []) := by
  induction l with
  | nil => rfl
  | cons c cs ih =>
    simp only [partition_char, if_neg (hsep c (List.mem_cons_self c cs))]
    rw [ih (fun c' hc' => hsep c' (List.mem_cons_of_mem _ hc'))]

/-- C6: `parse_address` always returns a 4-tuple of the segments, with
missing segments as empty strings: the two specified examples hold, and
on any string with no `@` and no `:` every segment after the node comes
back empty. -/
theorem parse_address_spec :
    parse_address "alice@chat:chat:template.os" = ("alice", "chat", "chat", "template.os") ∧
    parse_address "bob" = ("bob", "", "", "") ∧
    ∀ s : String, (∀ c ∈ s.toList, c ≠ '@' ∧ c ≠ ':') →
      parse_address s = (s, "", "", "") := by
  refine ⟨by decide, by decide, ?_⟩
  intro s h
  obtain ⟨l⟩ := s
  have h1 : partition_char '@' (String.toList ⟨l⟩) = (l, []) :=
    partition_char_of_not_mem '@' l (fun c hc => (h c hc).1)
  simp only [parse_address, h1, partition_char]

theorem parse_address_spec_witness :
    parse_address "xyz" = ("xyz", "", "", "") :=
  parse_address_spec.2.2 "xyz" (by decide)

/-- C7: a transport error from `receive` is not fatal: the loop
iteration logs `chat: error: got error: ...`, sends nothing, leaves the
archive unchanged, and the loop goes on to process the remaining
schedule exactly as if the failed receive had not happened. -/
theorem transport_error_nonfatal (our_node e : String) (a : Archive)
    (o : Except String Unit) (rest : List (Received × Except String Unit)) :
    loop_step our_node a (.err e) o =
      (a, ⟨[], [], ["chat: error: " ++ error_text (.transport e)]⟩) ∧
    run_loop our_node a ((.err e, o) :: rest) = run_loop our_node a rest := by
  exact ⟨rfl, rfl⟩

/-- C8: a `History` request for a key not present in the archive — in
particular any key on a fresh actor whose archive is `{}` — is answered
with the empty sequence and is not an error (the handler returns `.ok`,
never raising). -/
theorem history_unknown_key_empty (our_node sourceNode K : String) (a : Archive)
    (o : Except String Unit) (h : dict_contains a K = false) :
    handle_message our_node a (.request sourceNode (.history (some K))) o =
      .ok (a, ⟨[], [.historyEntries []], []⟩) := by
  simp [handle_message, history_lookup, get_of_not_contains a K h]

theorem history_unknown_key_empty_witness :
    handle_message "node" [] (.request "p" (.history (some "any-node"))) (.ok ()) =
      .ok ([], ⟨[], [.historyEntries []], []⟩) :=
  history_unknown_key_empty "node" "p" "any-node" [] (.ok ()) rfl

/-- C9: handling any `History` command is a pure read: the archive
returned by `handle_message` is the very archive passed in, the only
effect being the response carrying the looked-up entries. -/
theorem history_preserves_archive (our_node sourceNode : String) (node : Option String)
    (a : Archive) (o : Except String Unit) :
    handle_message our_node a (.request sourceNode (.history node)) o =
      .ok (a, ⟨[], [.historyEntries (history_lookup a node)], []⟩) := by
  rfl

/-- C10: error handling is atomic for the archive: whenever
`handle_message` raises (transport error, top-level response,
undecodable body, or unrecognized command tag), the loop's `except`
branch keeps the previous archive, so the archive seen by the next
iteration — and the rest of the run — is exactly the archive from
before the failed message. -/
theorem error_atomic (our_node : String) (a : Archive) (r : Received)
    (o : Except String Unit) (e : ChatError)
    (h : handle_message our_node a r o = .error e) :
    (loop_step our_node a r o).1 = a ∧
    ∀ rest, run_loop our_node a ((r, o) :: rest) = run_loop our_node a rest := by
  have h1 : (loop_step our_node a r o).1 = a := by
    simp [loop_step, h]
  refine ⟨h1, fun rest => ?_⟩
  simp only [run_loop, h1]

theorem error_atomic_witness :
    (loop_step "node" [] .response (.ok ())).1 = [] ∧
    ∀ rest, run_loop "node" [] ((.response, .ok ()) :: rest) = run_loop "node" [] rest :=
  error_atomic "node" [] .response (.ok ()) .unexpectedResponse rfl

end ChatKit
